import Mathlib

/-!
Verification of the Vue 2.6.11 reactivity core
(`src/core/observer/watcher.js` together with the observer module
`src/core/observer/index.js` shipped in the same source file).

The development shallowly embeds the dependency-tracking engine:

* JavaScript values are modelled by `JVal`; strict equality (`===`)
  including its NaN behaviour is `jeq`.
* A `Dep`'s subscriber list lives in a global table `Subs` mapping the
  dep's numeric id to the ordered list of subscribed watcher ids.
  The `Dep` class itself (`dep.js`) is not part of the given source, so
  `addSub` / `removeSub` / the notify snapshot are modelled from the
  spec's description of the Dependency Subject (a subscriber appears at
  most once; removal of a missing target is a no-op; `notify` fires on a
  snapshot of the current list).
* `WatcherTrack` is the double-buffered dependency state of one
  `Watcher` (`deps` / `newDeps` / `depIds` / `newDepIds`); `addDep`,
  `cleanupDeps` and the evaluation pipeline `get` are translated from
  the Watcher class.
* The observer side (`observe`, `defineReactive`'s accessor closures,
  `set`, `del`) is embedded with an explicit heap of object records.
-/

/-- JavaScript values as needed by the reactivity core: `undefined`,
the NaN sentinel, numbers, strings, booleans, and references to heap
objects (plain objects and arrays).  References carry the object id, so
`jeq` on two `ref`s is reference identity, exactly as `===`. -/
inductive JVal where
  | undef : JVal
  | nan : JVal
  | num : Int → JVal
  | str : String → JVal
  | bool : Bool → JVal
  | ref : Nat → JVal
deriving DecidableEq, Repr

/-- JavaScript strict equality `===`.  Structural on primitives and
reference identity on objects, except that `NaN === NaN` is `false`. -/
def jeq : JVal → JVal → Bool
  | JVal.nan, _ => false
  | _, JVal.nan => false
  | a, b => a = b

/-- The `isObject` helper of `util`: true exactly for non-null values of
type object, i.e. our heap references. -/
def isObject : JVal → Bool
  | JVal.ref _ => true
  | _ => false

/-- Global subscriber table: dep id ↦ ordered list of watcher ids
currently in that dep's `subs` array. -/
abbrev Subs := Nat → List Nat

/-- Modelled from the spec: `Dep.addSub(watcher)` appends the watcher to
the subscriber list; a duplicate add is a no-op (the spec's invariant is
that a subscriber appears at most once). -/
def addSub (subs : Subs) (d w : Nat) : Subs :=
  fun x => if x = d then (if w ∈ subs d then subs d else subs d ++ [w]) else subs x

/-- Modelled from the spec: `Dep.removeSub(watcher)` removes the watcher
from the subscriber list; removing a missing target is a no-op. -/
def removeSub (subs : Subs) (d w : Nat) : Subs :=
  fun x => if x = d then (subs d).erase w else subs x

/-- Modelled from the spec: the snapshot of subscribers whose `update()`
a `Dep.notify()` on dep `d` would invoke, in snapshot order. -/
def depNotifyTargets (subs : Subs) (d : Nat) : List Nat :=
  subs d

/-- The double-buffered dependency state of a `Watcher`: the `deps`
array and `depIds` set of the last completed evaluation, and the
`newDeps` array and `newDepIds` set being filled by the current one. -/
structure WatcherTrack where
  deps : List Nat
  newDeps : List Nat
  depIds : Finset Nat
  newDepIds : Finset Nat
deriving DecidableEq

/-- The initial tracking state set up by the Watcher constructor:
`this.deps = []; this.newDeps = []; this.depIds = new Set();
this.newDepIds = new Set()`. -/
def WatcherTrack.init : WatcherTrack :=
  { deps := [], newDeps := [], depIds := ∅, newDepIds := ∅ }

/-- `Watcher.addDep(dep)` (watcher.js lines 146-156): if the dep's id is
not yet in `newDepIds`, record it in `newDepIds` and push the dep onto
`newDeps`; additionally, if the id is not in `depIds` (not subscribed in
the previous pass), call `dep.addSub(this)`. -/
def addDep (w : Nat) (st : WatcherTrack) (subs : Subs) (d : Nat) :
    WatcherTrack × Subs :=
  if d ∈ st.newDepIds then (st, subs)
  else
    let st1 := { st with newDepIds := insert d st.newDepIds,
                         newDeps := st.newDeps ++ [d] }
    if d ∈ st.depIds then (st1, subs) else (st1, addSub subs d w)

/-- One evaluation's sequence of `dep.depend()` hits: each touched dep
delegates to the active watcher's `addDep`, in touch order. -/
def collectDeps (w : Nat) (st : WatcherTrack) (subs : Subs)
    (touched : List Nat) : WatcherTrack × Subs :=
  touched.foldl (fun p d => addDep w p.1 p.2 d) (st, subs)

/-- The `while (i--)` loop of `cleanupDeps`: walk the old `deps` array
from the back and `removeSub` the watcher from every dep whose id is
absent from `newDepIds` (`nids`).  `foldr` threads the subscriber table
through the entries in reverse array order, as the source loop does. -/
def removeOldSubs (w : Nat) (nids : Finset Nat) (deps : List Nat)
    (subs : Subs) : Subs :=
  deps.foldr (fun d ss => if d ∈ nids then ss else removeSub ss d w) subs

/-- `Watcher.cleanupDeps()` (watcher.js lines 161-182): unsubscribe from
every dep of the previous pass absent from `newDepIds`; then swap the
buffers — `depIds` becomes `newDepIds` and the new-side set is cleared,
`deps` becomes `newDeps` and the new-side array is emptied. -/
def cleanupDeps (w : Nat) (st : WatcherTrack) (subs : Subs) :
    WatcherTrack × Subs :=
  ({ deps := st.newDeps, newDeps := [],
     depIds := st.newDepIds, newDepIds := ∅ },
   removeOldSubs w st.newDepIds st.deps subs)

/-- The dependency bookkeeping of one complete `Watcher.get()` pass:
collect every dep touched by the evaluator, then reconcile with
`cleanupDeps`. -/
def evalDeps (w : Nat) (st : WatcherTrack) (subs : Subs)
    (touched : List Nat) : WatcherTrack × Subs :=
  let p := collectDeps w st subs touched
  cleanupDeps w p.1 p.2

/-- Mid-evaluation invariant of watcher `w`: the `newDeps` array mirrors
the `newDepIds` set without duplicates, the watcher is subscribed to
exactly the deps of the previous pass plus the newly discovered ones,
and no subscriber list holds a duplicate entry. -/
def TrackInv (w : Nat) (st : WatcherTrack) (subs : Subs) : Prop :=
  st.newDeps.toFinset = st.newDepIds ∧
  st.newDeps.Nodup ∧
  (∀ d, w ∈ subs d ↔ d ∈ st.depIds ∪ st.newDepIds) ∧
  (∀ d, (subs d).Nodup)

theorem addDep_spec (w : Nat) (st : WatcherTrack) (subs : Subs) (d : Nat)
    (hinv : TrackInv w st subs) :
    TrackInv w (addDep w st subs d).1 (addDep w st subs d).2 ∧
    (addDep w st subs d).1.newDepIds = insert d st.newDepIds ∧
    (addDep w st subs d).1.depIds = st.depIds ∧
    (addDep w st subs d).1.deps = st.deps := by
  obtain ⟨hfin, hnd, hsub, hsnd⟩ := hinv
  by_cases hnew : d ∈ st.newDepIds
  · have hred : addDep w st subs d = (st, subs) := by
      simp [addDep, hnew]
    rw [hred]
    exact ⟨⟨hfin, hnd, hsub, hsnd⟩, (Finset.insert_eq_self.mpr hnew).symm,
      rfl, rfl⟩
  · have hdnotin : d ∉ st.newDeps := by
      intro hmem
      exact hnew (hfin ▸ List.mem_toFinset.mpr hmem)
    by_cases hold : d ∈ st.depIds
    · have hred : addDep w st subs d
          = ({ st with newDepIds := insert d st.newDepIds,
                       newDeps := st.newDeps ++ [d] }, subs) := by
        simp [addDep, hnew, hold]
      rw [hred]
      dsimp only
      refine ⟨⟨?_, ?_, ?_, hsnd⟩, rfl, rfl, rfl⟩
      · ext x
        simp [hfin, or_comm]
      · simp [List.nodup_append, hnd, hdnotin]
      · intro x
        rw [hsub x]
        simp only [Finset.mem_union, Finset.mem_insert]
        constructor
        · tauto
        · rintro (h | h | h)
          · exact Or.inl h
          · exact Or.inl (h ▸ hold)
          · exact Or.inr h
    · have hred : addDep w st subs d
          = ({ st with newDepIds := insert d st.newDepIds,
                       newDeps := st.newDeps ++ [d] }, addSub subs d w) := by
        simp [addDep, hnew, hold]
      rw [hred]
      dsimp only
      refine ⟨⟨?_, ?_, ?_, ?_⟩, rfl, rfl, rfl⟩
      · ext x
        simp [hfin, or_comm]
      · simp [List.nodup_append, hnd, hdnotin]
      · intro x
        by_cases hx : x = d
        · subst hx
          have hmem : w ∈ addSub subs x w x := by
            by_cases hw : w ∈ subs x
            · simp [addSub, hw]
            · simp [addSub, hw]
          simp [hmem]
        · have hsame : addSub subs d w x = subs x := by
            simp [addSub, hx]
          rw [hsame, hsub x]
          simp only [Finset.mem_union, Finset.mem_insert]
          constructor
          · tauto
          · rintro (h | h | h)
            · exact Or.inl h
            · exact absurd h hx
            · exact Or.inr h
      · intro x
        by_cases hx : x = d
        · subst hx
          by_cases hw : w ∈ subs x
          · have : addSub subs x w x = subs x := by simp [addSub, hw]
            rw [this]
            exact hsnd x
          · have : addSub subs x w x = subs x ++ [w] := by simp [addSub, hw]
            rw [this]
            exact List.Nodup.append (hsnd x) (List.nodup_singleton w)
              (by simpa using hw)
        · have : addSub subs d w x = subs x := by simp [addSub, hx]
          rw [this]
          exact hsnd x

theorem collectDeps_spec (w : Nat) (touched : List Nat) :
    ∀ (st : WatcherTrack) (subs : Subs), TrackInv w st subs →
      TrackInv w (collectDeps w st subs touched).1
        (collectDeps w st subs touched).2 ∧
      (collectDeps w st subs touched).1.newDepIds
        = st.newDepIds ∪ touched.toFinset ∧
      (collectDeps w st subs touched).1.depIds = st.depIds ∧
      (collectDeps w st subs touched).1.deps = st.deps := by
  induction touched with
  | nil =>
    intro st subs hinv
    exact ⟨hinv, by simp [collectDeps], rfl, rfl⟩
  | cons d rest ih =>
    intro st subs hinv
    obtain ⟨hinv1, hids1, hold1, hdeps1⟩ := addDep_spec w st subs d hinv
    have hstep : collectDeps w st subs (d :: rest)
        = collectDeps w (addDep w st subs d).1 (addDep w st subs d).2 rest := by
      simp [collectDeps]
    obtain ⟨hinv2, hids2, hold2, hdeps2⟩ :=
      ih (addDep w st subs d).1 (addDep w st subs d).2 hinv1
    refine ⟨hstep ▸ hinv2, ?_, ?_, ?_⟩
    · rw [hstep, hids2, hids1, List.toFinset_cons]
      ext x
      simp only [Finset.mem_union, Finset.mem_insert]
      tauto
    · rw [hstep, hold2, hold1]
    · rw [hstep, hdeps2, hdeps1]

theorem removeOldSubs_spec (w : Nat) (nids : Finset Nat) (deps : List Nat) :
    ∀ (subs : Subs), (∀ d, (subs d).Nodup) →
      (∀ x, w ∈ removeOldSubs w nids deps subs x ↔
        (w ∈ subs x ∧ ¬(x ∈ deps ∧ x ∉ nids))) ∧
      (∀ x, (removeOldSubs w nids deps subs x).Nodup) := by
  induction deps with
  | nil =>
    intro subs hnd
    refine ⟨fun x => ?_, fun x => hnd x⟩
    simp [removeOldSubs]
  | cons d0 rest ih =>
    intro subs hnd
    obtain ⟨ihm, ihnd⟩ := ih subs hnd
    have hstep : removeOldSubs w nids (d0 :: rest) subs
        = (if d0 ∈ nids then removeOldSubs w nids rest subs
           else removeSub (removeOldSubs w nids rest subs) d0 w) := by
      simp [removeOldSubs]
    by_cases h0 : d0 ∈ nids
    · rw [hstep, if_pos h0]
      refine ⟨fun x => ?_, ihnd⟩
      rw [ihm x]
      constructor
      · rintro ⟨hw, hr⟩
        refine ⟨hw, ?_⟩
        rintro ⟨hmem, hnin⟩
        rcases List.mem_cons.mp hmem with h | h
        · exact hnin (h ▸ h0)
        · exact hr ⟨h, hnin⟩
      · rintro ⟨hw, hr⟩
        refine ⟨hw, ?_⟩
        rintro ⟨hmem, hnin⟩
        exact hr ⟨List.mem_cons_of_mem _ hmem, hnin⟩
    · rw [hstep, if_neg h0]
      constructor
      · intro x
        by_cases hx : x = d0
        · subst hx
          have hred : removeSub (removeOldSubs w nids rest subs) x w x
              = (removeOldSubs w nids rest subs x).erase w := by
            simp [removeSub]
          rw [hred, (ihnd x).mem_erase_iff]
          simp only [ne_eq, not_true_eq_false, false_and, false_iff]
          rintro ⟨_, hr⟩
          exact hr ⟨List.mem_cons_self x rest, h0⟩
        · have hred : removeSub (removeOldSubs w nids rest subs) d0 w x
              = removeOldSubs w nids rest subs x := by
            simp [removeSub, hx]
          rw [hred, ihm x]
          constructor
          · rintro ⟨hw, hr⟩
            refine ⟨hw, ?_⟩
            rintro ⟨hmem, hnin⟩
            rcases List.mem_cons.mp hmem with h | h
            · exact hx h
            · exact hr ⟨h, hnin⟩
          · rintro ⟨hw, hr⟩
            refine ⟨hw, ?_⟩
            rintro ⟨hmem, hnin⟩
            exact hr ⟨List.mem_cons_of_mem _ hmem, hnin⟩
      · intro x
        by_cases hx : x = d0
        · subst hx
          have hred : removeSub (removeOldSubs w nids rest subs) x w x
              = (removeOldSubs w nids rest subs x).erase w := by
            simp [removeSub]
          rw [hred]
          exact (ihnd x).erase w
        · have hred : removeSub (removeOldSubs w nids rest subs) d0 w x
              = removeOldSubs w nids rest subs x := by
            simp [removeSub, hx]
          rw [hred]
          exact ihnd x

/-- C1: for every watcher, a completed evaluation pass (`get`, i.e.
collect every touched dep via `addDep` then reconcile via
`cleanupDeps`) leaves `depIds`/`deps` holding exactly the deps whose
`depend()` fired during the evaluation, without duplicates, with the
new-side buffers reset; the watcher is subscribed via `addSub` to
exactly those deps and no others, so a write to a property whose dep
was not touched in the most recent evaluation never lists the watcher
among its notify targets. -/
theorem evalDeps_exact_subscription
    (w : Nat) (st : WatcherTrack) (subs : Subs) (touched : List Nat)
    (hnewDeps : st.newDeps = [])
    (hnewIds : st.newDepIds = ∅)
    (hdeps : st.deps.toFinset = st.depIds)
    (hsub : ∀ d, w ∈ subs d ↔ d ∈ st.depIds)
    (hnd : ∀ d, (subs d).Nodup) :
    (evalDeps w st subs touched).1.depIds = touched.toFinset ∧
    (evalDeps w st subs touched).1.deps.toFinset = touched.toFinset ∧
    (evalDeps w st subs touched).1.deps.Nodup ∧
    (evalDeps w st subs touched).1.newDeps = [] ∧
    (evalDeps w st subs touched).1.newDepIds = ∅ ∧
    (∀ d, w ∈ (evalDeps w st subs touched).2 d ↔ d ∈ touched.toFinset) ∧
    (∀ d, d ∉ touched.toFinset →
      w ∉ depNotifyTargets (evalDeps w st subs touched).2 d) := by
  have hinv0 : TrackInv w st subs := by
    refine ⟨?_, ?_, ?_, hnd⟩
    · rw [hnewDeps, hnewIds]
      simp
    · rw [hnewDeps]
      exact List.nodup_nil
    · intro d
      rw [hsub d, hnewIds]
      simp
  obtain ⟨⟨hfin1, hnd1, hsub1, hsnd1⟩, hids1, hold1, hdeps1⟩ :=
    collectDeps_spec w touched st subs hinv0
  have hids1T : (collectDeps w st subs touched).1.newDepIds
      = touched.toFinset := by
    rw [hids1, hnewIds, Finset.empty_union]
  have hev : evalDeps w st subs touched
      = cleanupDeps w (collectDeps w st subs touched).1
          (collectDeps w st subs touched).2 := rfl
  obtain ⟨hm, hndr⟩ := removeOldSubs_spec w
    (collectDeps w st subs touched).1.newDepIds
    (collectDeps w st subs touched).1.deps
    (collectDeps w st subs touched).2 hsnd1
  have hmem : ∀ d, w ∈ (evalDeps w st subs touched).2 d
      ↔ d ∈ touched.toFinset := by
    intro d
    rw [hev]
    show w ∈ removeOldSubs w (collectDeps w st subs touched).1.newDepIds
        (collectDeps w st subs touched).1.deps
        (collectDeps w st subs touched).2 d ↔ d ∈ touched.toFinset
    rw [hm d, hsub1 d, hold1, hids1T, hdeps1]
    have hdd : d ∈ st.deps ↔ d ∈ st.depIds := by
      rw [← hdeps]
      exact List.mem_toFinset.symm
    constructor
    · rintro ⟨hin, hnot⟩
      rcases Finset.mem_union.mp hin with h | h
      · by_contra hT
        exact hnot ⟨hdd.mpr h, hT⟩
      · exact h
    · intro hT
      refine ⟨Finset.mem_union.mpr (Or.inr hT), ?_⟩
      rintro ⟨_, hnT⟩
      exact hnT hT
  refine ⟨?_, ?_, ?_, ?_, ?_, hmem, ?_⟩
  · rw [hev]
    show (collectDeps w st subs touched).1.newDepIds = touched.toFinset
    exact hids1T
  · rw [hev]
    show (collectDeps w st subs touched).1.newDeps.toFinset
        = touched.toFinset
    rw [hfin1, hids1T]
  · rw [hev]
    exact hnd1
  · rw [hev]
    rfl
  · rw [hev]
    rfl
  · intro d hT
    rw [depNotifyTargets]
    exact fun hw => hT ((hmem d).mp hw)

/-- Outcome record of one `Watcher.get()` call: the returned (or
re-raised) result, the active-tracker stack, the watcher's tracking
state, the subscriber table and the errors routed to `handleError`. -/
structure GetOut where
  ret : Except String JVal
  stack : List Nat
  track : WatcherTrack
  subs : Subs
  handled : List String

/-- `Watcher.get()` (watcher.js lines 109-141).  `pushTarget(this)`
pushes the watcher id on the active-tracker stack (the `Dep` module is
not in the source; the spec describes it as a strict push/pop stack).
The evaluator call `this.getter.call(vm, vm)` is modelled by its
outcome: the sequence `touched` of deps whose `depend()` fired before it
finished or threw, and its result `res`.  The catch clause routes the
error to `handleError` in user mode and re-raises otherwise; the finally
clause runs `traverse(value)` when `deep` (the collaborator `trav`
yields the deps a traversal of a value touches; after a caught failure
`value` is `undefined`), then `popTarget()` and `cleanupDeps()`
unconditionally; the value is returned afterwards. -/
def watcherGet (w : Nat) (user deep : Bool) (touched : List Nat)
    (res : Except String JVal) (trav : JVal → List Nat)
    (stack : List Nat) (st : WatcherTrack) (subs : Subs)
    (handled : List String) : GetOut :=
  let stack1 := w :: stack
  let p1 := collectDeps w st subs touched
  let value : JVal := match res with
    | Except.ok v => v
    | Except.error _ => JVal.undef
  let handled1 := match res with
    | Except.ok _ => handled
    | Except.error e => if user then handled ++ [e] else handled
  let p2 := if deep then collectDeps w p1.1 p1.2 (trav value) else p1
  let stack2 := stack1.tail
  let p3 := cleanupDeps w p2.1 p2.2
  let ret := match res with
    | Except.ok v => Except.ok v
    | Except.error e => if user then Except.ok JVal.undef else Except.error e
  ⟨ret, stack2, p3.1, p3.2, handled1⟩

/-- C2: every `get()` pops the active-tracker slot and reconciles the
dependency buffers unconditionally — the stack it leaves equals the one
it found (the pop matches the push even on failure) and the new-side
buffers are reset by `cleanupDeps` on every path; when the evaluator
throws in user mode the error goes to the external handler and `get`
returns as if no value was produced (`undefined`), and when it throws
outside user mode the error is re-raised after pop and reconciliation. -/
theorem watcherGet_unconditional_finalize
    (w : Nat) (user deep : Bool) (touched : List Nat)
    (res : Except String JVal) (trav : JVal → List Nat)
    (stack : List Nat) (st : WatcherTrack) (subs : Subs)
    (handled : List String) :
    (watcherGet w user deep touched res trav stack st subs handled).stack
      = stack ∧
    (watcherGet w user deep touched res trav stack st subs handled).track.newDeps
      = [] ∧
    (watcherGet w user deep touched res trav stack st subs handled).track.newDepIds
      = ∅ ∧
    (∀ e, res = Except.error e → user = true →
      (watcherGet w user deep touched res trav stack st subs handled).ret
          = Except.ok JVal.undef ∧
      (watcherGet w user deep touched res trav stack st subs handled).handled
          = handled ++ [e]) ∧
    (∀ e, res = Except.error e → user = false →
      (watcherGet w user deep touched res trav stack st subs handled).ret
          = Except.error e ∧
      (watcherGet w user deep touched res trav stack st subs handled).handled
          = handled) ∧
    (∀ v, res = Except.ok v →
      (watcherGet w user deep touched res trav stack st subs handled).ret
          = Except.ok v ∧
      (watcherGet w user deep touched res trav stack st subs handled).handled
          = handled) := by
  refine ⟨rfl, rfl, rfl, ?_, ?_, ?_⟩
  · rintro e rfl rfl
    exact ⟨rfl, rfl⟩
  · rintro e rfl rfl
    exact ⟨rfl, rfl⟩
  · rintro v rfl
    exact ⟨rfl, rfl⟩

/-- Concrete instantiation of `watcherGet_unconditional_finalize`: a
non-user watcher whose evaluator throws after touching dep 3; the error
is re-raised, the stack is restored and the buffers are reconciled. -/
theorem watcherGet_unconditional_finalize_witness :
    ((Except.error "boom" : Except String JVal) = Except.error "boom") ∧
    ((watcherGet 0 false false [3] (Except.error "boom") (fun _ => [])
        [7] WatcherTrack.init (fun _ => []) []).stack = [7] ∧
      (watcherGet 0 false false [3] (Except.error "boom") (fun _ => [])
        [7] WatcherTrack.init (fun _ => []) []).ret
          = Except.error "boom") := by
  have h := watcherGet_unconditional_finalize 0 false false [3]
    (Except.error "boom") (fun _ => []) [7] WatcherTrack.init
    (fun _ => []) []
  exact ⟨rfl, h.1, (h.2.2.2.2.1 "boom" rfl rfl).1⟩

/-- Concrete instantiation of `evalDeps_exact_subscription`: a fresh
watcher 0 evaluating with touch sequence `[1, 2, 1]` over an empty
subscriber table — it ends up holding and subscribed to deps 1 and 2. -/
theorem evalDeps_exact_subscription_witness :
    WatcherTrack.init.newDeps = [] ∧
    ((evalDeps 0 WatcherTrack.init (fun _ => []) [1, 2, 1]).1.depIds
        = ([1, 2, 1] : List Nat).toFinset ∧
      (evalDeps 0 WatcherTrack.init (fun _ => []) [1, 2, 1]).1.deps.toFinset
        = ([1, 2, 1] : List Nat).toFinset ∧
      (evalDeps 0 WatcherTrack.init (fun _ => []) [1, 2, 1]).1.deps.Nodup ∧
      (evalDeps 0 WatcherTrack.init (fun _ => []) [1, 2, 1]).1.newDeps = [] ∧
      (evalDeps 0 WatcherTrack.init (fun _ => []) [1, 2, 1]).1.newDepIds = ∅ ∧
      (∀ d, 0 ∈ (evalDeps 0 WatcherTrack.init (fun _ => []) [1, 2, 1]).2 d
        ↔ d ∈ ([1, 2, 1] : List Nat).toFinset) ∧
      (∀ d, d ∉ ([1, 2, 1] : List Nat).toFinset →
        0 ∉ depNotifyTargets
          (evalDeps 0 WatcherTrack.init (fun _ => []) [1, 2, 1]).2 d)) :=
  ⟨rfl, evalDeps_exact_subscription 0 WatcherTrack.init (fun _ => [])
    [1, 2, 1] rfl rfl (by simp [WatcherTrack.init])
    (by simp [WatcherTrack.init]) (by simp)⟩

/-- The fields of a heap object that the observer module inspects: the
excluded-instance markers (`VNode`, `_isVue`), the container kind
(array vs plain object), extensibility, and the hidden `__ob__` marker
(the id of the attached `Observer`, if any). -/
structure VObj where
  isVNode : Bool
  isArray : Bool
  isPlain : Bool
  extensible : Bool
  isVue : Bool
  ob : Option Nat
deriving DecidableEq, Repr

/-- Global observer-side state: the heap of object records, the
per-observer `vmCount` and `dep` id, the `shouldObserve` toggle and the
server-rendering flag, plus fresh-id counters for observers and deps. -/
structure ObsState where
  heap : Nat → VObj
  vmCount : Nat → Nat
  obDep : Nat → Nat
  shouldObserve : Bool
  serverRendering : Bool
  nextOb : Nat
  nextDep : Nat

/-- `new Observer(value)` (observer index, lines 313-328) as far as the
marker logic goes: allocate the observer and its own `Dep`
(`this.dep = new Dep()`), set `vmCount` to 0, and attach the hidden
`__ob__` marker to the value via `def(value, '__ob__', this)`.  The
recursive child conversion (`protoAugment`/`observeArray` for arrays,
`walk` for plain objects) installs accessors on other records — it is
modelled separately by the reactive-property closures and never touches
the `__ob__` marker of `value` itself, so it is elided here. -/
def newObserver (r : Nat) (s : ObsState) : Nat × ObsState :=
  let i := s.nextOb
  (i, { s with
        heap := fun x => if x = r then { s.heap x with ob := some i }
                         else s.heap x,
        obDep := fun x => if x = i then s.nextDep else s.obDep x,
        vmCount := fun x => if x = i then 0 else s.vmCount x,
        nextOb := i + 1,
        nextDep := s.nextDep + 1 })

/-- `observe(value, asRootData)` (observer index, lines 383-407):
non-objects and `VNode`s yield nothing; a value already carrying the
`__ob__` marker yields the existing observer; otherwise, when
observation is enabled, not server-rendering, the value is an array or
a plain object, extensible, and not a Vue instance, a fresh `Observer`
is attached; finally `vmCount` is bumped when `asRootData` holds and an
observer resulted. -/
def observe (v : JVal) (asRootData : Bool) (s : ObsState) :
    Option Nat × ObsState :=
  match v with
  | JVal.ref r =>
    let o := s.heap r
    if o.isVNode then (none, s)
    else
      let p : Option Nat × ObsState :=
        match o.ob with
        | some i => (some i, s)
        | none =>
          if s.shouldObserve && !s.serverRendering
              && (o.isArray || o.isPlain) && o.extensible && !o.isVue then
            let q := newObserver r s
            (some q.1, q.2)
          else (none, s)
      match p.1 with
      | some i =>
        if asRootData then
          (p.1, { p.2 with vmCount := fun x =>
                    if x = i then p.2.vmCount x + 1 else p.2.vmCount x })
        else p
      | none => p
  | _ => (none, s)

/-- C3: `observe` is idempotent.  If `observe(X)` returns an `Observer`,
calling `observe(X)` again returns the identical observer instance —
the second call finds the hidden `__ob__` marker and changes nothing. -/
theorem observe_idempotent (v : JVal) (s : ObsState) (i : Nat)
    (s' : ObsState) (h : observe v false s = (some i, s')) :
    observe v false s' = (some i, s') := by
  cases v with
  | undef => simp [observe] at h
  | nan => simp [observe] at h
  | num n => simp [observe] at h
  | str t => simp [observe] at h
  | bool b => simp [observe] at h
  | ref r =>
    by_cases hvn : (s.heap r).isVNode
    · rw [show observe (JVal.ref r) false s = (none, s) by
        simp [observe, hvn]] at h
      exact absurd (congrArg Prod.fst h) (by simp)
    · cases hob : (s.heap r).ob with
      | some j =>
        have hred : observe (JVal.ref r) false s = (some j, s) := by
          simp [observe, hvn, hob]
        rw [hred] at h
        injection h with h1 h2
        injection h1 with h1
        subst h1
        subst h2
        exact hred
      | none =>
        by_cases hg : (s.shouldObserve && !s.serverRendering
            && ((s.heap r).isArray || (s.heap r).isPlain)
            && (s.heap r).extensible && !(s.heap r).isVue) = true
        · have hred : observe (JVal.ref r) false s
              = (some s.nextOb, (newObserver r s).2) := by
            simp [observe, hvn, hob, hg, newObserver]
          rw [hred] at h
          injection h with h1 h2
          injection h1 with h1
          subst h1
          subst h2
          simp [observe, newObserver, hvn]
        · have hred : observe (JVal.ref r) false s = (none, s) := by
            simp [observe, hvn, hob, hg]
          rw [hred] at h
          exact absurd (congrArg Prod.fst h) (by simp)

/-- A fully permissive initial observer state: every heap record is an
extensible plain object with no marker, observation is enabled. -/
def obsState0 : ObsState :=
  { heap := fun _ => { isVNode := false, isArray := false, isPlain := true,
                       extensible := true, isVue := false, ob := none },
    vmCount := fun _ => 0,
    obDep := fun _ => 0,
    shouldObserve := true,
    serverRendering := false,
    nextOb := 0,
    nextDep := 0 }

/-- Concrete instantiation of `observe_idempotent`: observing the plain
object at heap slot 5 twice returns observer 0 both times, with no
change of state on the second call. -/
theorem observe_idempotent_witness :
    observe (JVal.ref 5) false obsState0
      = (some 0, (observe (JVal.ref 5) false obsState0).2) ∧
    observe (JVal.ref 5) false (observe (JVal.ref 5) false obsState0).2
      = (some 0, (observe (JVal.ref 5) false obsState0).2) := by
  have h : observe (JVal.ref 5) false obsState0
      = (some 0, (observe (JVal.ref 5) false obsState0).2) := rfl
  exact ⟨h, observe_idempotent (JVal.ref 5) obsState0 0
    (observe (JVal.ref 5) false obsState0).2 h⟩

/-- The accessor pair found by `Object.getOwnPropertyDescriptor` before
`defineReactive` installs its interception: configurability and whether
a pre-existing getter/setter is present. -/
structure PropDesc where
  configurable : Bool
  hasGet : Bool
  hasSet : Bool
deriving DecidableEq, Repr

/-- The closure state of one installed reactive property: the property's
own `Dep` id, the captured `val`, the current child observer `childOb`,
the preserved pre-existing accessor pair (with `getterVal` standing for
what the pre-existing getter returns when called), and the `shallow`
flag. -/
structure PropClosure where
  depId : Nat
  val : JVal
  childOb : Option Nat
  hasGetter : Bool
  hasSetter : Bool
  getterVal : JVal
  shallow : Bool
deriving DecidableEq, Repr

/-- `defineReactive(obj, key, val, customSetter, shallow)` (observer
index, lines 412-482), up to the closure it installs: allocate the
property's `Dep`; abort on a non-configurable descriptor; read the
initial value from `obj[key]` (`curVal`) only when there is no getter or
there is a setter AND the call passed just two arguments (`valArg` is
`none` exactly when `arguments.length === 2`); then compute the child
observer with `observe(val)` unless shallow. -/
def defineReactive (desc : Option PropDesc) (curVal : JVal)
    (valArg : Option JVal) (getterVal : JVal) (shallow : Bool)
    (s : ObsState) : Option PropClosure × ObsState :=
  let depId := s.nextDep
  let s0 := { s with nextDep := s.nextDep + 1 }
  if desc.elim false (fun d => !d.configurable) then (none, s0)
  else
    let hasGetter := desc.elim false (fun d => d.hasGet)
    let hasSetter := desc.elim false (fun d => d.hasSet)
    let val := if (!hasGetter || hasSetter) && valArg.isNone then curVal
               else valArg.getD JVal.undef
    let co := if !shallow then observe val false s0 else (none, s0)
    (some { depId := depId, val := val, childOb := co.1,
            hasGetter := hasGetter, hasSetter := hasSetter,
            getterVal := getterVal, shallow := shallow }, co.2)

/-- `Array.isArray(value)` over the heap. -/
def isArrayVal (v : JVal) (s : ObsState) : Bool :=
  match v with
  | JVal.ref r => (s.heap r).isArray
  | _ => false

/-- Result of one `reactiveGetter` call: the value produced and the dep
ids on which `depend()` fired, in order. -/
structure GetterOut where
  value : JVal
  touched : List Nat
deriving DecidableEq, Repr

/-- The installed `reactiveGetter` (observer index, lines 437-453):
produce the pre-existing getter's result if present, else the stored
`val`; when the active-tracker slot is occupied, `dep.depend()`, and if
a child observer exists also `childOb.dep.depend()` plus, for array
values, `dependArray` (modelled by the collaborator `arrDeps`, which
yields the dep ids of the elements' observers). -/
def reactiveGetter (p : PropClosure) (targetActive : Bool) (s : ObsState)
    (arrDeps : JVal → List Nat) : GetterOut :=
  let value := if p.hasGetter then p.getterVal else p.val
  if targetActive then
    { value := value,
      touched := [p.depId] ++
        (match p.childOb with
         | some c =>
           [s.obDep c] ++ (if isArrayVal value s then arrDeps value else [])
         | none => []) }
  else { value := value, touched := [] }

/-- Result of one `reactiveSetter` call: the updated closure and
observer state, the dep ids notified, whether a pre-existing setter was
invoked, and whether `observe` was re-run on the new value. -/
structure SetterOut where
  prop : PropClosure
  obs : ObsState
  notified : List Nat
  setterCalled : Bool
  observeCalled : Bool

/-- The installed `reactiveSetter` (observer index, lines 455-480):
read the old value (pre-existing getter or stored `val`); return
untouched when the new value is strictly equal or both old and new are
NaN; return untouched when a pre-existing getter has no setter
(read-only passthrough); otherwise store through the pre-existing
setter or into `val`, recompute `childOb = !shallow && observe(newVal)`
and fire `dep.notify()`. -/
def reactiveSetter (p : PropClosure) (newVal : JVal) (s : ObsState) :
    SetterOut :=
  let value := if p.hasGetter then p.getterVal else p.val
  if jeq newVal value || (!jeq newVal newVal && !jeq value value) then
    { prop := p, obs := s, notified := [],
      setterCalled := false, observeCalled := false }
  else if p.hasGetter && !p.hasSetter then
    { prop := p, obs := s, notified := [],
      setterCalled := false, observeCalled := false }
  else
    let p1 := if p.hasSetter then p else { p with val := newVal }
    let co := if !p.shallow then observe newVal false s else (none, s)
    { prop := { p1 with childOb := co.1 }, obs := co.2,
      notified := [p.depId], setterCalled := p.hasSetter,
      observeCalled := !p.shallow }

/-- Strict self-inequality characterizes the NaN sentinel. -/
theorem jeq_self_eq_false_iff (v : JVal) :
    jeq v v = false ↔ v = JVal.nan := by
  cases v <;> simp [jeq]

/-- C4: a write that is reference-identical to the current value (or
NaN over NaN) returns without storing, without recomputing the child
observer and without any notify; and a property with a pre-existing
getter but no setter silently ignores every write — no store, no child
recomputation, no notify, property state unchanged. -/
theorem reactiveSetter_guards (p : PropClosure) (newVal : JVal)
    (s : ObsState) :
    ((jeq newVal (if p.hasGetter then p.getterVal else p.val) = true
        ∨ (newVal = JVal.nan
            ∧ (if p.hasGetter then p.getterVal else p.val) = JVal.nan)) →
      reactiveSetter p newVal s
        = { prop := p, obs := s, notified := [],
            setterCalled := false, observeCalled := false }) ∧
    (p.hasGetter = true → p.hasSetter = false →
      reactiveSetter p newVal s
        = { prop := p, obs := s, notified := [],
            setterCalled := false, observeCalled := false }) := by
  constructor
  · intro h
    have hcond : (jeq newVal (if p.hasGetter then p.getterVal else p.val)
        || (!jeq newVal newVal
            && !jeq (if p.hasGetter then p.getterVal else p.val)
                    (if p.hasGetter then p.getterVal else p.val))) = true := by
      rcases h with h | ⟨h1, h2⟩
      · simp [h]
      · subst h1
        rw [h2]
        simp [jeq]
    simp only [reactiveSetter, hcond, if_true]
  · intro hg hs
    by_cases hcond : (jeq newVal (if p.hasGetter then p.getterVal else p.val)
        || (!jeq newVal newVal
            && !jeq (if p.hasGetter then p.getterVal else p.val)
                    (if p.hasGetter then p.getterVal else p.val))) = true
    · simp only [reactiveSetter, hcond, if_true]
    · simp only [reactiveSetter, hcond, if_false, Bool.not_eq_true] at *
      simp [reactiveSetter, hcond, hg, hs]

/-- Concrete instantiation of `reactiveSetter_guards`: writing `5` over
a stored `5` on a plain reactive property changes nothing and fires no
notify. -/
theorem reactiveSetter_guards_witness :
    (jeq (JVal.num 5)
      (if ({ depId := 7, val := JVal.num 5, childOb := none,
             hasGetter := false, hasSetter := false,
             getterVal := JVal.undef, shallow := false } : PropClosure).hasGetter
       then ({ depId := 7, val := JVal.num 5, childOb := none,
               hasGetter := false, hasSetter := false,
               getterVal := JVal.undef, shallow := false } : PropClosure).getterVal
       else ({ depId := 7, val := JVal.num 5, childOb := none,
               hasGetter := false, hasSetter := false,
               getterVal := JVal.undef, shallow := false } : PropClosure).val)
      = true) ∧
    reactiveSetter
      { depId := 7, val := JVal.num 5, childOb := none,
        hasGetter := false, hasSetter := false,
        getterVal := JVal.undef, shallow := false } (JVal.num 5) obsState0
      = { prop := { depId := 7, val := JVal.num 5, childOb := none,
                    hasGetter := false, hasSetter := false,
                    getterVal := JVal.undef, shallow := false },
          obs := obsState0, notified := [],
          setterCalled := false, observeCalled := false } := by
  refine ⟨by decide, ?_⟩
  exact (reactiveSetter_guards
    { depId := 7, val := JVal.num 5, childOb := none,
      hasGetter := false, hasSetter := false,
      getterVal := JVal.undef, shallow := false } (JVal.num 5) obsState0).1
    (Or.inl (by decide))

/-- The watcher state that `run()` reads and writes. -/
structure RunWatcher where
  active : Bool
  value : JVal
  deep : Bool
  user : Bool
deriving DecidableEq, Repr

/-- Outcome record of one `Watcher.run()` call: the updated watcher
state, whether `get()` was invoked, the `(newValue, oldValue)` pair the
callback was invoked with (if it fired), the errors routed to
`handleError`, and the error propagated to the caller (if any). -/
structure RunOut where
  st : RunWatcher
  getCalled : Bool
  cbCalled : Option (JVal × JVal)
  handled : List String
  thrown : Option String
deriving DecidableEq, Repr

/-- `Watcher.run()` (watcher.js lines 206-232): no-op unless active;
recompute the value via `get()` (its result is the parameter
`newValue`); fire the callback with `(value, oldValue)` and store the
new value exactly when `value !== this.value || isObject(value) ||
this.deep`; a callback failure (`cbOutcome`) is caught and routed to
`handleError` in user mode and propagates otherwise. -/
def watcherRun (s : RunWatcher) (newValue : JVal)
    (cbOutcome : Except String Unit) : RunOut :=
  if s.active then
    if !jeq newValue s.value || isObject newValue || s.deep then
      let oldValue := s.value
      let s1 := { s with value := newValue }
      match cbOutcome with
      | Except.ok _ =>
        { st := s1, getCalled := true, cbCalled := some (newValue, oldValue),
          handled := [], thrown := none }
      | Except.error e =>
        if s.user then
          { st := s1, getCalled := true,
            cbCalled := some (newValue, oldValue),
            handled := [e], thrown := none }
        else
          { st := s1, getCalled := true,
            cbCalled := some (newValue, oldValue),
            handled := [], thrown := some e }
    else
      { st := s, getCalled := true, cbCalled := none,
        handled := [], thrown := none }
  else
    { st := s, getCalled := false, cbCalled := none,
      handled := [], thrown := none }



/-- C5: `run()` is a no-op when inactive (the evaluator is not even
re-run); when active it recomputes via `get()`, fires the callback with
`(new, old)` exactly when the new value differs by reference from the
cached one, is an object/array, or the watcher is deep, storing the new
value when it fires and leaving everything untouched otherwise;
callback errors are caught and routed to the handler exactly in user
mode and propagate otherwise. -/
theorem watcherRun_fire_condition (s : RunWatcher) (newValue : JVal)
    (cbOutcome : Except String Unit) :
    (s.active = false →
      watcherRun s newValue cbOutcome
        = { st := s, getCalled := false, cbCalled := none,
            handled := [], thrown := none }) ∧
    (s.active = true →
      (watcherRun s newValue cbOutcome).getCalled = true ∧
      ((watcherRun s newValue cbOutcome).cbCalled = some (newValue, s.value)
        ↔ (!jeq newValue s.value || isObject newValue || s.deep) = true) ∧
      ((!jeq newValue s.value || isObject newValue || s.deep) = true →
        (watcherRun s newValue cbOutcome).st.value = newValue) ∧
      ((!jeq newValue s.value || isObject newValue || s.deep) = false →
        watcherRun s newValue cbOutcome
          = { st := s, getCalled := true, cbCalled := none,
              handled := [], thrown := none }) ∧
      (∀ e, cbOutcome = Except.error e →
        (!jeq newValue s.value || isObject newValue || s.deep) = true →
        (s.user = true →
          (watcherRun s newValue cbOutcome).handled = [e] ∧
          (watcherRun s newValue cbOutcome).thrown = none) ∧
        (s.user = false →
          (watcherRun s newValue cbOutcome).handled = [] ∧
          (watcherRun s newValue cbOutcome).thrown = some e))) := by
  constructor
  · intro ha
    simp [watcherRun, ha]
  · intro ha
    rcases Bool.eq_false_or_eq_true
        (!jeq newValue s.value || isObject newValue || s.deep) with hc | hc
    · cases cbOutcome with
      | ok u =>
        have hred : watcherRun s newValue (Except.ok u)
            = { st := { s with value := newValue }, getCalled := true,
                cbCalled := some (newValue, s.value), handled := [],
                thrown := none } := by
          simp [watcherRun, ha, hc]
        rw [hred]
        refine ⟨rfl, by simp [hc], fun _ => rfl, ?_, ?_⟩
        · intro h
          rw [h] at hc
          simp at hc
        · intro e hcb
          simp at hcb
      | error e0 =>
        rcases Bool.eq_false_or_eq_true s.user with hu | hu
        · have hred : watcherRun s newValue (Except.error e0)
              = { st := { s with value := newValue }, getCalled := true,
                  cbCalled := some (newValue, s.value), handled := [e0],
                  thrown := none } := by
            simp [watcherRun, ha, hc, hu]
          rw [hred]
          refine ⟨rfl, by simp [hc], fun _ => rfl, ?_, ?_⟩
          · intro h
            rw [h] at hc
            simp at hc
          · intro e hcb hcond
            injection hcb with he
            subst he
            refine ⟨fun _ => ⟨rfl, rfl⟩, fun huf => ?_⟩
            rw [huf] at hu
            simp at hu
        · have hred : watcherRun s newValue (Except.error e0)
              = { st := { s with value := newValue }, getCalled := true,
                  cbCalled := some (newValue, s.value), handled := [],
                  thrown := some e0 } := by
            simp [watcherRun, ha, hc, hu]
          rw [hred]
          refine ⟨rfl, by simp [hc], fun _ => rfl, ?_, ?_⟩
          · intro h
            rw [h] at hc
            simp at hc
          · intro e hcb hcond
            injection hcb with he
            subst he
            refine ⟨fun hut => ?_, fun _ => ⟨rfl, rfl⟩⟩
            rw [hut] at hu
            simp at hu
    · have hred : watcherRun s newValue cbOutcome
          = { st := s, getCalled := true, cbCalled := none,
              handled := [], thrown := none } := by
        simp [watcherRun, ha, hc]
      rw [hred]
      refine ⟨rfl, by simp [hc], ?_, fun _ => rfl, ?_⟩
      · intro h
        rw [h] at hc
        simp at hc
      · intro e hcb h
        rw [h] at hc
        simp at hc

/-- Concrete instantiation of `watcherRun_fire_condition`: an active
non-deep user watcher whose value changes from 1 to 2 fires the
callback with `(2, 1)` and stores 2. -/
theorem watcherRun_fire_condition_witness :
    (({ active := true, value := JVal.num 1, deep := false,
        user := true } : RunWatcher).active = true) ∧
    ((watcherRun
        { active := true, value := JVal.num 1, deep := false, user := true }
        (JVal.num 2) (Except.ok ())).cbCalled
      = some (JVal.num 2, JVal.num 1)) := by
  have h := (watcherRun_fire_condition
    { active := true, value := JVal.num 1, deep := false, user := true }
    (JVal.num 2) (Except.ok ())).2 rfl
  exact ⟨rfl, h.2.1.mpr (by decide)⟩

/-- The option bag accepted by the `Watcher` constructor. -/
structure WOptions where
  deep : Bool
  user : Bool
  lazy : Bool
  sync : Bool
deriving DecidableEq, Repr

/-- The watcher state the constructor and `evaluate()` manipulate.
`evalCount` counts how many times the evaluator (`get`) has run. -/
structure WatcherState where
  deep : Bool
  user : Bool
  lazy : Bool
  sync : Bool
  active : Bool
  dirty : Bool
  value : JVal
  track : WatcherTrack
  evalCount : Nat
deriving DecidableEq

/-- The `Watcher` constructor (watcher.js lines 45-103): push onto the
owner's `_watchers` list; take the mode flags from `options` or default
them all to false; set `active`, `dirty = lazy`, and the empty
dependency buffers; then `value = lazy ? undefined : this.get()` — the
evaluator result is the parameter `getResult`, consumed only when not
lazy. -/
def watcherConstruct (options : Option WOptions) (getResult : JVal)
    (vmWatchers : List Nat) (wid : Nat) : WatcherState × List Nat :=
  let vmw := vmWatchers ++ [wid]
  let dp := options.elim false (fun o => o.deep)
  let us := options.elim false (fun o => o.user)
  let lz := options.elim false (fun o => o.lazy)
  let sy := options.elim false (fun o => o.sync)
  ({ deep := dp, user := us, lazy := lz, sync := sy,
     active := true, dirty := lz,
     value := if lz then JVal.undef else getResult,
     track := WatcherTrack.init,
     evalCount := if lz then 0 else 1 }, vmw)

/-- `Watcher.evaluate()` (watcher.js lines 238-241): run `get()` (its
result is `getResult`), store it as the cached value, and clear the
dirty flag. -/
def watcherEvaluate (s : WatcherState) (getResult : JVal) : WatcherState :=
  { s with value := getResult, dirty := false,
           evalCount := s.evalCount + 1 }

/-- C6: constructing a watcher with the `lazy` option never invokes the
evaluator (the cached value stays `undefined`, the dirty flag is set),
and the first evaluation happens only through `evaluate()`, which runs
`get()` once, stores the result and clears the dirty flag. -/
theorem lazyWatcher_defers_evaluation (opts : WOptions) (g g2 : JVal)
    (vmWatchers : List Nat) (wid : Nat) (hlazy : opts.lazy = true) :
    (watcherConstruct (some opts) g vmWatchers wid).1.evalCount = 0 ∧
    (watcherConstruct (some opts) g vmWatchers wid).1.value = JVal.undef ∧
    (watcherConstruct (some opts) g vmWatchers wid).1.dirty = true ∧
    (watcherEvaluate (watcherConstruct (some opts) g vmWatchers wid).1
        g2).evalCount = 1 ∧
    (watcherEvaluate (watcherConstruct (some opts) g vmWatchers wid).1
        g2).value = g2 ∧
    (watcherEvaluate (watcherConstruct (some opts) g vmWatchers wid).1
        g2).dirty = false := by
  simp [watcherConstruct, watcherEvaluate, hlazy]

/-- Concrete instantiation of `lazyWatcher_defers_evaluation`: a lazy
watcher built over evaluator result 42 stays unevaluated until
`evaluate()` pulls 42 in. -/
theorem lazyWatcher_defers_evaluation_witness :
    ({ deep := false, user := false, lazy := true,
       sync := false } : WOptions).lazy = true ∧
    (watcherConstruct
        (some { deep := false, user := false, lazy := true, sync := false })
        (JVal.num 42) [] 1).1.evalCount = 0 ∧
    (watcherEvaluate
        (watcherConstruct
          (some { deep := false, user := false, lazy := true, sync := false })
          (JVal.num 42) [] 1).1 (JVal.num 42)).value = JVal.num 42 := by
  have h := lazyWatcher_defers_evaluation
    { deep := false, user := false, lazy := true, sync := false }
    (JVal.num 42) (JVal.num 42) [] 1 rfl
  exact ⟨rfl, h.1, h.2.2.2.2.1⟩

/-- The `while (i--) this.deps[i].removeSub(this)` loop of
`teardown()`: unsubscribe the watcher from every held dep, walking the
array from the back. -/
def removeAllSubs (w : Nat) (deps : List Nat) (subs : Subs) : Subs :=
  deps.foldr (fun d ss => removeSub ss d w) subs

theorem removeAllSubs_spec (w : Nat) (deps : List Nat) :
    ∀ (subs : Subs), (∀ d, (subs d).Nodup) →
      (∀ x, w ∈ removeAllSubs w deps subs x ↔ (w ∈ subs x ∧ x ∉ deps)) ∧
      (∀ x, (removeAllSubs w deps subs x).Nodup) := by
  induction deps with
  | nil =>
    intro subs hnd
    refine ⟨fun x => ?_, fun x => hnd x⟩
    simp [removeAllSubs]
  | cons d0 rest ih =>
    intro subs hnd
    obtain ⟨ihm, ihnd⟩ := ih subs hnd
    have hstep : removeAllSubs w (d0 :: rest) subs
        = removeSub (removeAllSubs w rest subs) d0 w := by
      simp [removeAllSubs]
    rw [hstep]
    constructor
    · intro x
      by_cases hx : x = d0
      · subst hx
        have hred : removeSub (removeAllSubs w rest subs) x w x
            = (removeAllSubs w rest subs x).erase w := by
          simp [removeSub]
        rw [hred, (ihnd x).mem_erase_iff]
        simp only [ne_eq, not_true_eq_false, false_and, false_iff]
        rintro ⟨_, hr⟩
        exact hr (List.mem_cons_self x rest)
      · have hred : removeSub (removeAllSubs w rest subs) d0 w x
            = removeAllSubs w rest subs x := by
          simp [removeSub, hx]
        rw [hred, ihm x]
        constructor
        · rintro ⟨hw, hr⟩
          refine ⟨hw, ?_⟩
          intro hmem
          rcases List.mem_cons.mp hmem with h | h
          · exact hx h
          · exact hr h
        · rintro ⟨hw, hr⟩
          exact ⟨hw, fun h => hr (List.mem_cons_of_mem _ h)⟩
    · intro x
      by_cases hx : x = d0
      · subst hx
        have hred : removeSub (removeAllSubs w rest subs) x w x
            = (removeAllSubs w rest subs x).erase w := by
          simp [removeSub]
        rw [hred]
        exact (ihnd x).erase w
      · have hred : removeSub (removeAllSubs w rest subs) d0 w x
            = removeAllSubs w rest subs x := by
          simp [removeSub, hx]
        rw [hred]
        exact ihnd x

/-- The state `teardown()` touches: the watcher's `active` flag and
`deps` array, together with the owner vm's `_watchers` list and its
`_isBeingDestroyed` flag. -/
structure TearState where
  active : Bool
  deps : List Nat
  vmWatchers : List Nat
  vmBeingDestroyed : Bool
deriving DecidableEq, Repr

/-- `Watcher.teardown()` (watcher.js lines 256-270): only when active —
remove self from the owner's `_watchers` list (skipped when the owner
is being destroyed; the `remove` util deletes the first occurrence),
`removeSub` from every held dep, and clear the `active` flag. -/
def teardown (w : Nat) (t : TearState) (subs : Subs) : TearState × Subs :=
  if t.active then
    let vmw := if !t.vmBeingDestroyed then t.vmWatchers.erase w
               else t.vmWatchers
    ({ t with active := false, vmWatchers := vmw },
     removeAllSubs w t.deps subs)
  else (t, subs)

/-- C9: `teardown()` is idempotent — the second invocation on the (now
inactive) watcher changes nothing; the first invocation on an active
watcher unsubscribes it from every held dep, removes it from the
owner's watcher list unless the owner is being destroyed, and clears
`active` permanently. -/
theorem teardown_idempotent (w : Nat) (t : TearState) (subs : Subs)
    (hnd : ∀ d, (subs d).Nodup) :
    teardown w (teardown w t subs).1 (teardown w t subs).2
      = teardown w t subs ∧
    (teardown w t subs).1.active = false ∧
    (t.active = true →
      ∀ d, d ∈ t.deps → w ∉ (teardown w t subs).2 d) ∧
    (t.active = true → t.vmBeingDestroyed = false →
      (teardown w t subs).1.vmWatchers = t.vmWatchers.erase w) ∧
    (t.active = true → t.vmBeingDestroyed = true →
      (teardown w t subs).1.vmWatchers = t.vmWatchers) := by
  rcases Bool.eq_false_or_eq_true t.active with ha | ha
  · obtain ⟨hm, _⟩ := removeAllSubs_spec w t.deps subs hnd
    have hred : teardown w t subs
        = ({ t with active := false,
                    vmWatchers := if !t.vmBeingDestroyed
                                  then t.vmWatchers.erase w
                                  else t.vmWatchers },
           removeAllSubs w t.deps subs) := by
      simp [teardown, ha]
    rw [hred]
    refine ⟨by simp [teardown], rfl, ?_, ?_, ?_⟩
    · intro _ d hd hw
      exact ((hm d).mp hw).2 hd
    · intro _ hbd
      simp [hbd]
    · intro _ hbd
      simp [hbd]
  · have hred : teardown w t subs = (t, subs) := by
      simp [teardown, ha]
    rw [hred]
    refine ⟨hred, ha, ?_, ?_, ?_⟩
    · intro hcontra
      rw [hcontra] at ha
      simp at ha
    · intro hcontra
      rw [hcontra] at ha
      simp at ha
    · intro hcontra
      rw [hcontra] at ha
      simp at ha

/-- The concrete subscriber table used by the teardown witness: watcher
0 is subscribed to dep 1 only. -/
def subsW : Subs := fun x => if x = 1 then [0] else []

/-- The concrete watcher used by the teardown witness. -/
def tearW : TearState :=
  { active := true, deps := [1], vmWatchers := [0],
    vmBeingDestroyed := false }

/-- Concrete instantiation of `teardown_idempotent`: an active watcher
holding dep 1 is unsubscribed once and a repeat teardown is inert. -/
theorem teardown_idempotent_witness :
    (∀ d, (subsW d).Nodup) ∧
    teardown 0 (teardown 0 tearW subsW).1 (teardown 0 tearW subsW).2
      = teardown 0 tearW subsW ∧
    (teardown 0 tearW subsW).1.active = false := by
  have hnd : ∀ d, (subsW d).Nodup := by
    intro d
    by_cases h : d = 1 <;> simp [subsW, h]
  have h := teardown_idempotent 0 tearW subsW hnd
  exact ⟨hnd, h.1, h.2.1⟩

/-- C10: a two-argument `defineReactive(obj, key)` over a property
whose descriptor has a getter but no setter never reads the initial
value through that getter: the captured `val` stays `undefined`
(whatever `obj[key]` would have returned), hence `observe(val)` yields
no child observer and no observer is allocated, and the first reactive
read under an active tracker returns the getter's result having
registered only the property's own dep — no child dependency. -/
theorem defineReactive_getter_no_initial_read
    (curVal getterVal : JVal) (s : ObsState)
    (arrDeps : JVal → List Nat) :
    (defineReactive
        (some { configurable := true, hasGet := true, hasSet := false })
        curVal none getterVal false s).1
      = some { depId := s.nextDep, val := JVal.undef, childOb := none,
               hasGetter := true, hasSetter := false,
               getterVal := getterVal, shallow := false } ∧
    (defineReactive
        (some { configurable := true, hasGet := true, hasSet := false })
        curVal none getterVal false s).2
      = { s with nextDep := s.nextDep + 1 } ∧
    reactiveGetter
        { depId := s.nextDep, val := JVal.undef, childOb := none,
          hasGetter := true, hasSetter := false,
          getterVal := getterVal, shallow := false } true s arrDeps
      = { value := getterVal, touched := [s.nextDep] } :=
  ⟨rfl, rfl, rfl⟩

/-- A property key as `set`/`del` receive it: a numeric array index or
a string name.  (Numeric strings, which `isValidArrayIndex` would also
accept, are not modelled; the claims only exercise genuine numbers and
plain names.) -/
inductive PKey where
  | idx : Nat → PKey
  | name : String → PKey
deriving DecidableEq, Repr

/-- The string an object-path key denotes (JavaScript object keys are
strings). -/
def PKey.keyStr : PKey → String
  | PKey.idx n => toString n
  | PKey.name nm => nm

/-- `key in Object.prototype`: the standard own properties of
`Object.prototype`. -/
def inObjectProto (nm : String) : Bool :=
  ["constructor", "hasOwnProperty", "isPrototypeOf",
   "propertyIsEnumerable", "toLocaleString", "toString",
   "valueOf"].contains nm

/-- A container as `set`/`del` see it: array flag and elements, the
reactive own properties (with their installed closures), the plain own
properties, the `_isVue` marker and the `__ob__` observer id. -/
structure Container where
  isArray : Bool
  elems : List JVal
  rprops : List (String × PropClosure)
  pprops : List (String × JVal)
  isVue : Bool
  ob : Option Nat
deriving DecidableEq, Repr

/-- `hasOwn(target, key)` over the container model. -/
def hasOwnProp (c : Container) (nm : String) : Bool :=
  (c.rprops.lookup nm).isSome || (c.pprops.lookup nm).isSome

/-- Plain-assignment update of an association list: replace the entry
if present, append otherwise. -/
def setAssoc (l : List (String × JVal)) (nm : String) (v : JVal) :
    List (String × JVal) :=
  if (l.lookup nm).isSome then
    l.map (fun e => if e.1 = nm then (nm, v) else e)
  else l ++ [(nm, v)]

/-- Replace the closure stored under `nm`. -/
def replaceProp (l : List (String × PropClosure)) (nm : String)
    (p : PropClosure) : List (String × PropClosure) :=
  l.map (fun e => if e.1 = nm then (nm, p) else e)

/-- The JavaScript assignment `target[key] = val`: routed through the
installed `reactiveSetter` when the key is a reactive property, a plain
own-property write otherwise.  Returns the updated container and
observer state together with the dep ids notified. -/
def jsAssign (c : Container) (nm : String) (v : JVal) (s : ObsState) :
    Container × ObsState × List Nat :=
  match c.rprops.lookup nm with
  | some p =>
    let out := reactiveSetter p v s
    ({ c with rprops := replaceProp c.rprops nm out.prop },
     out.obs, out.notified)
  | none => ({ c with pprops := setAssoc c.pprops nm v }, s, [])

/-- `target.length = Math.max(target.length, key); target.splice(key,
1, val)`: pad with `undefined` up to the adjusted length, then replace
in place or append. -/
def spliceSet (elems : List JVal) (k : Nat) (v : JVal) : List JVal :=
  let padded := elems
    ++ List.replicate (max elems.length k - elems.length) JVal.undef
  if k < padded.length then padded.set k v else padded ++ [v]

/-- Outcome record of `set`/`del`: the container and observer state
afterwards, the returned value, the dep ids notified, and whether the
root-target diagnostic fired. -/
structure MutOut where
  target : Container
  obs : ObsState
  ret : JVal
  notified : List Nat
  warned : Bool

/-- `set(target, key, val)` (observer index, lines 493-548): an array
with a valid index goes through the wrapped `splice` (which notifies
the container's own dep when the array is observed); an existing own
key not shadowing `Object.prototype` is written by plain assignment
(hitting the installed reactive setter, if any); a Vue instance or root
data with `vmCount` bindings is refused with a diagnostic; an
unobserved target gets a plain non-reactive assignment; otherwise the
key is installed via `defineReactive(ob.value, key, val)` and the
container observer's dep notifies once. -/
def vueSet (c : Container) (k : PKey) (val : JVal) (s : ObsState) :
    MutOut :=
  match k, c.isArray with
  | PKey.idx n, true =>
    { target := { c with elems := spliceSet c.elems n val }, obs := s,
      ret := val, notified := c.ob.elim [] (fun ob => [s.obDep ob]),
      warned := false }
  | k, _ =>
    let nm := k.keyStr
    if hasOwnProp c nm && !inObjectProto nm then
      let a := jsAssign c nm val s
      { target := a.1, obs := a.2.1, ret := val, notified := a.2.2,
        warned := false }
    else if c.isVue || c.ob.elim false (fun ob => s.vmCount ob != 0) then
      { target := c, obs := s, ret := val, notified := [], warned := true }
    else
      match c.ob with
      | none =>
        let a := jsAssign c nm val s
        { target := a.1, obs := a.2.1, ret := val, notified := a.2.2,
          warned := false }
      | some ob =>
        let dr := defineReactive none JVal.undef (some val) JVal.undef
          false s
        { target := dr.1.elim c
            (fun p => { c with rprops := c.rprops ++ [(nm, p)] }),
          obs := dr.2, ret := val, notified := [dr.2.obDep ob],
          warned := false }

/-- `del(target, key)` (observer index, lines 553-579): an array with a
valid index goes through the wrapped `splice(key, 1)` (notifying the
container dep when observed); a Vue instance or root data is refused
with a diagnostic; a key that is not an own property is a no-op;
otherwise the key is deleted and the container observer's dep notifies
once — or not at all when the target is unobserved. -/
def vueDel (c : Container) (k : PKey) (s : ObsState) : MutOut :=
  match k, c.isArray with
  | PKey.idx n, true =>
    { target := { c with elems := c.elems.eraseIdx n }, obs := s,
      ret := JVal.undef, notified := c.ob.elim [] (fun ob => [s.obDep ob]),
      warned := false }
  | k, _ =>
    let nm := k.keyStr
    if c.isVue || c.ob.elim false (fun ob => s.vmCount ob != 0) then
      { target := c, obs := s, ret := JVal.undef, notified := [],
        warned := true }
    else if !(hasOwnProp c nm) then
      { target := c, obs := s, ret := JVal.undef, notified := [],
        warned := false }
    else
      let c1 := { c with rprops := c.rprops.filter (fun e => e.1 != nm),
                         pprops := c.pprops.filter (fun e => e.1 != nm) }
      match c.ob with
      | none =>
        { target := c1, obs := s, ret := JVal.undef, notified := [],
          warned := false }
      | some ob =>
        { target := c1, obs := s, ret := JVal.undef,
          notified := [s.obDep ob], warned := false }

theorem lookup_append_of_none {β : Type} (l1 l2 : List (String × β))
    (k : String) (h : l1.lookup k = none) :
    (l1 ++ l2).lookup k = l2.lookup k := by
  induction l1 with
  | nil => simp
  | cons e rest ih =>
    rw [List.cons_append]
    rcases e with ⟨a, b⟩
    by_cases hk : k = a
    · subst hk
      simp [List.lookup] at h
    · have hne : (k == a) = false := by
        simp [hk]
      simp only [List.lookup, hne] at h ⊢
      exact ih h

/-- C7 (amended): the branch behavior of `set(target, key, val)` — an
array index goes through the wrapped splice and returns the value; an
existing own key (not shadowing `Object.prototype`) is written by plain
assignment through the existing reactive setter, which fires exactly
one notify unless the setter's identical-value/NaN guard or its
getter-without-setter guard suppresses the store, in which case it
fires none; a Vue instance or root data with live bindings is refused
with a diagnostic and no mutation; an unobserved target gets a plain
non-reactive assignment; otherwise the key is installed reactively via
`defineReactive` and the container observer's dep notifies exactly
once. -/
theorem vueSet_branch_behavior (c : Container) (nm : String) (n : Nat)
    (val : JVal) (s : ObsState) :
    (c.isArray = true →
      (vueSet c (PKey.idx n) val s).target.elems = spliceSet c.elems n val ∧
      (vueSet c (PKey.idx n) val s).ret = val ∧
      (vueSet c (PKey.idx n) val s).warned = false ∧
      (vueSet c (PKey.idx n) val s).notified
        = c.ob.elim [] (fun ob => [s.obDep ob])) ∧
    ((hasOwnProp c nm && !inObjectProto nm) = true →
      ∀ p, c.rprops.lookup nm = some p →
        (vueSet c (PKey.name nm) val s).ret = val ∧
        (vueSet c (PKey.name nm) val s).warned = false ∧
        (vueSet c (PKey.name nm) val s).notified
          = (reactiveSetter p val s).notified ∧
        ((jeq val (if p.hasGetter then p.getterVal else p.val) = false ∧
          ¬(val = JVal.nan
             ∧ (if p.hasGetter then p.getterVal else p.val) = JVal.nan) ∧
          (p.hasGetter && !p.hasSetter) = false) →
          (vueSet c (PKey.name nm) val s).notified = [p.depId]) ∧
        (((jeq val (if p.hasGetter then p.getterVal else p.val) = true
            ∨ (val = JVal.nan
               ∧ (if p.hasGetter then p.getterVal else p.val) = JVal.nan))
           ∨ (p.hasGetter && !p.hasSetter) = true) →
          (vueSet c (PKey.name nm) val s).notified = [])) ∧
    ((hasOwnProp c nm && !inObjectProto nm) = false →
      (c.isVue || c.ob.elim false (fun ob => s.vmCount ob != 0)) = true →
      vueSet c (PKey.name nm) val s
        = { target := c, obs := s, ret := val, notified := [],
            warned := true }) ∧
    (hasOwnProp c nm = false →
      (c.isVue || c.ob.elim false (fun ob => s.vmCount ob != 0)) = false →
      c.ob = none →
      vueSet c (PKey.name nm) val s
        = { target := { c with pprops := setAssoc c.pprops nm val },
            obs := s, ret := val, notified := [], warned := false }) ∧
    (hasOwnProp c nm = false →
      (c.isVue || c.ob.elim false (fun ob => s.vmCount ob != 0)) = false →
      ∀ o, c.ob = some o →
        (vueSet c (PKey.name nm) val s).ret = val ∧
        (vueSet c (PKey.name nm) val s).warned = false ∧
        (vueSet c (PKey.name nm) val s).notified
          = [(defineReactive none JVal.undef (some val) JVal.undef
              false s).2.obDep o] ∧
        (vueSet c (PKey.name nm) val s).target.rprops.lookup nm
          = (defineReactive none JVal.undef (some val) JVal.undef
              false s).1) := by
  refine ⟨?_, ?_, ?_, ?_, ?_⟩
  · intro ha
    simp [vueSet, ha]
  · intro hown p hp
    have hred : vueSet c (PKey.name nm) val s
        = { target := { c with
              rprops := replaceProp c.rprops nm (reactiveSetter p val s).prop },
            obs := (reactiveSetter p val s).obs, ret := val,
            notified := (reactiveSetter p val s).notified,
            warned := false } := by
      cases hb : c.isArray
      · simp [vueSet, PKey.keyStr, hown, jsAssign, hp, hb]
      · simp [vueSet, PKey.keyStr, hown, jsAssign, hp, hb]
    rw [hred]
    refine ⟨rfl, rfl, rfl, ?_, ?_⟩
    · rintro ⟨h1, h2, h3⟩
      have hguard : (jeq val (if p.hasGetter then p.getterVal else p.val)
          || (!jeq val val
              && !jeq (if p.hasGetter then p.getterVal else p.val)
                      (if p.hasGetter then p.getterVal else p.val))) = false := by
        rw [Bool.or_eq_false_iff]
        refine ⟨h1, ?_⟩
        rw [Bool.and_eq_false_iff]
        rcases hv : jeq val val with _ | _
        · have hvn : val = JVal.nan := (jeq_self_eq_false_iff val).mp hv
          have hval : (if p.hasGetter then p.getterVal else p.val)
              ≠ JVal.nan := fun hV => h2 ⟨hvn, hV⟩
          right
          rcases hw : jeq (if p.hasGetter then p.getterVal else p.val)
              (if p.hasGetter then p.getterVal else p.val) with _ | _
          · exact absurd ((jeq_self_eq_false_iff _).mp hw) hval
          · simp
        · left
          simp
      simp [reactiveSetter, hguard, h3]
    · rintro (h | h)
      · have hguard : (jeq val (if p.hasGetter then p.getterVal else p.val)
            || (!jeq val val
                && !jeq (if p.hasGetter then p.getterVal else p.val)
                        (if p.hasGetter then p.getterVal else p.val))) = true := by
          rcases h with h | ⟨h1, h2⟩
          · simp [h]
          · subst h1
            rw [h2]
            simp [jeq]
        simp [reactiveSetter, hguard]
      · by_cases hguard : (jeq val (if p.hasGetter then p.getterVal else p.val)
            || (!jeq val val
                && !jeq (if p.hasGetter then p.getterVal else p.val)
                        (if p.hasGetter then p.getterVal else p.val))) = true
        · simp [reactiveSetter, hguard]
        · simp only [Bool.not_eq_true] at hguard
          simp [reactiveSetter, hguard, h]
  · intro hown hroot
    cases hb : c.isArray
    · simp [vueSet, PKey.keyStr, hown, hroot, hb]
    · simp [vueSet, PKey.keyStr, hown, hroot, hb]
  · intro hown hroot hob
    have hrp : c.rprops.lookup nm = none := by
      cases hl : c.rprops.lookup nm with
      | none => rfl
      | some q =>
        rw [hasOwnProp, hl] at hown
        simp at hown
    have hcond : (hasOwnProp c nm && !inObjectProto nm) = false := by
      simp [hown]
    have hvue : c.isVue = false := (Bool.or_eq_false_iff.mp hroot).1
    cases hb : c.isArray
    · simp [vueSet, PKey.keyStr, hcond, hroot, hob, jsAssign, hrp, hb, hvue]
    · simp [vueSet, PKey.keyStr, hcond, hroot, hob, jsAssign, hrp, hb, hvue]
  · intro hown hroot o hob
    have hrp : c.rprops.lookup nm = none := by
      cases hl : c.rprops.lookup nm with
      | none => rfl
      | some q =>
        rw [hasOwnProp, hl] at hown
        simp at hown
    have hcond : (hasOwnProp c nm && !inObjectProto nm) = false := by
      simp [hown]
    have hred : vueSet c (PKey.name nm) val s
        = { target := (defineReactive none JVal.undef (some val) JVal.undef
              false s).1.elim c
              (fun p => { c with rprops := c.rprops ++ [(nm, p)] }),
            obs := (defineReactive none JVal.undef (some val) JVal.undef
              false s).2,
            ret := val,
            notified := [(defineReactive none JVal.undef (some val)
              JVal.undef false s).2.obDep o],
            warned := false } := by
      have hvue : c.isVue = false := (Bool.or_eq_false_iff.mp hroot).1
      have hvm : s.vmCount o = 0 := by
        have h2 := (Bool.or_eq_false_iff.mp hroot).2
        rw [hob] at h2
        simpa using h2
      cases hb : c.isArray
      · simp [vueSet, PKey.keyStr, hcond, hroot, hob, hb, hvue, hvm]
      · simp [vueSet, PKey.keyStr, hcond, hroot, hob, hb, hvue, hvm]
    rw [hred]
    refine ⟨rfl, rfl, rfl, ?_⟩
    have hdr : (defineReactive none JVal.undef (some val) JVal.undef
        false s).1
        = some { depId := s.nextDep, val := val,
                 childOb := (observe val false
                   { s with nextDep := s.nextDep + 1 }).1,
                 hasGetter := false, hasSetter := false,
                 getterVal := JVal.undef, shallow := false } := rfl
    rw [hdr]
    simp only [Option.elim]
    rw [lookup_append_of_none c.rprops _ nm hrp]
    simp [List.lookup]

/-- A reactive property closure currently storing `5`, used by the C7
counterexample. -/
def propK : PropClosure :=
  { depId := 7, val := JVal.num 5, childOb := none, hasGetter := false,
    hasSetter := false, getterVal := JVal.undef, shallow := false }

/-- An observed plain object whose own key `"k"` is the reactive
property `propK`. -/
def cOwn : Container :=
  { isArray := false, elems := [], rprops := [("k", propK)], pprops := [],
    isVue := false, ob := some 0 }

/-- Counterexample to C7 as frozen: on the observed object `cOwn`,
whose own reactive key `"k"` currently stores `5`, `set(cOwn, "k", 5)`
takes the plain-assignment branch but fires zero notifies — not
"exactly one" — because the reactive setter's identical-value guard
suppresses the write before `dep.notify()`. -/
theorem vueSet_ownkey_identical_zero_notifies :
    hasOwnProp cOwn "k" = true ∧
    cOwn.ob = some 0 ∧
    (vueSet cOwn (PKey.name "k") (JVal.num 5) obsState0).notified = [] :=
  ⟨rfl, rfl, rfl⟩

/-- An observed plain object with no own properties, used by the C7
witness. -/
def cPlain : Container :=
  { isArray := false, elems := [], rprops := [], pprops := [],
    isVue := false, ob := some 0 }

/-- Concrete instantiation of `vueSet_branch_behavior`: adding a fresh
key `"newKey"` to the observed object `cPlain` installs it via
`defineReactive` and notifies the container observer's dep exactly
once. -/
theorem vueSet_branch_behavior_witness :
    hasOwnProp cPlain "newKey" = false ∧
    (cPlain.isVue || cPlain.ob.elim false
      (fun ob => obsState0.vmCount ob != 0)) = false ∧
    ((vueSet cPlain (PKey.name "newKey") (JVal.num 5) obsState0).notified
        = [(defineReactive none JVal.undef (some (JVal.num 5)) JVal.undef
            false obsState0).2.obDep 0] ∧
      (vueSet cPlain (PKey.name "newKey") (JVal.num 5)
          obsState0).target.rprops.lookup "newKey"
        = (defineReactive none JVal.undef (some (JVal.num 5)) JVal.undef
            false obsState0).1) := by
  have h := (vueSet_branch_behavior cPlain "newKey" 0 (JVal.num 5)
    obsState0).2.2.2.2 rfl rfl 0 rfl
  exact ⟨rfl, rfl, h.2.2.1, h.2.2.2⟩

theorem lookup_filter_ne {β : Type} (l : List (String × β)) (nm : String) :
    (l.filter (fun e => e.1 != nm)).lookup nm = none := by
  induction l with
  | nil => rfl
  | cons e rest ih =>
    by_cases h : e.1 = nm
    · have hb : (e.1 != nm) = false := by
        simp [h]
      simp [List.filter_cons, hb, ih]
    · have hb : (e.1 != nm) = true := by
        simp [h]
      have hk : (nm == e.1) = false := by
        simp [Ne.symm h]
      simp [List.filter_cons, hb, List.lookup, hk, ih]

/-- C8 (amended): the branch behavior of `del(target, key)` — a list
index goes through the wrapped splice, removing the element and
notifying the container dep exactly once when the list is observed; a
Vue instance or root data with live bindings is refused with a
diagnostic, performing no deletion and no notify; a key that is not an
own property is a no-op with no notify; otherwise the key is deleted,
with exactly one notify on the container observer's dep when the target
is observed and none when it is not. -/
theorem vueDel_branch_behavior (c : Container) (nm : String) (n : Nat)
    (s : ObsState) :
    (c.isArray = true →
      (vueDel c (PKey.idx n) s).target.elems = c.elems.eraseIdx n ∧
      (n < c.elems.length →
        (vueDel c (PKey.idx n) s).target.elems.length
          = c.elems.length - 1) ∧
      (∀ ob, c.ob = some ob →
        (vueDel c (PKey.idx n) s).notified = [s.obDep ob]) ∧
      (vueDel c (PKey.idx n) s).warned = false) ∧
    ((c.isVue || c.ob.elim false (fun ob => s.vmCount ob != 0)) = true →
      vueDel c (PKey.name nm) s
        = { target := c, obs := s, ret := JVal.undef, notified := [],
            warned := true }) ∧
    ((c.isVue || c.ob.elim false (fun ob => s.vmCount ob != 0)) = false →
      hasOwnProp c nm = false →
      vueDel c (PKey.name nm) s
        = { target := c, obs := s, ret := JVal.undef, notified := [],
            warned := false }) ∧
    ((c.isVue || c.ob.elim false (fun ob => s.vmCount ob != 0)) = false →
      hasOwnProp c nm = true → c.ob = none →
      (vueDel c (PKey.name nm) s).target.rprops.lookup nm = none ∧
      (vueDel c (PKey.name nm) s).target.pprops.lookup nm = none ∧
      (vueDel c (PKey.name nm) s).notified = [] ∧
      (vueDel c (PKey.name nm) s).warned = false) ∧
    ((c.isVue || c.ob.elim false (fun ob => s.vmCount ob != 0)) = false →
      hasOwnProp c nm = true → ∀ o, c.ob = some o →
      (vueDel c (PKey.name nm) s).target.rprops.lookup nm = none ∧
      (vueDel c (PKey.name nm) s).target.pprops.lookup nm = none ∧
      (vueDel c (PKey.name nm) s).notified = [s.obDep o] ∧
      (vueDel c (PKey.name nm) s).warned = false) := by
  refine ⟨?_, ?_, ?_, ?_, ?_⟩
  · intro ha
    refine ⟨by simp [vueDel, ha], ?_, ?_, by simp [vueDel, ha]⟩
    · intro hn
      have : (vueDel c (PKey.idx n) s).target.elems = c.elems.eraseIdx n := by
        simp [vueDel, ha]
      rw [this, List.length_eraseIdx]
      simp [hn]
    · intro ob hob
      simp [vueDel, ha, hob]
  · intro hroot
    cases hb : c.isArray
    · simp [vueDel, PKey.keyStr, hroot, hb]
    · simp [vueDel, PKey.keyStr, hroot, hb]
  · intro hroot hown
    have hvue : c.isVue = false := (Bool.or_eq_false_iff.mp hroot).1
    have hvm : (c.ob.elim false fun ob => s.vmCount ob != 0) = false :=
      (Bool.or_eq_false_iff.mp hroot).2
    cases hb : c.isArray
    · simp [vueDel, PKey.keyStr, hroot, hown, hb, hvue, hvm]
    · simp [vueDel, PKey.keyStr, hroot, hown, hb, hvue, hvm]
  · intro hroot hown hob
    have hvue : c.isVue = false := (Bool.or_eq_false_iff.mp hroot).1
    have hred : vueDel c (PKey.name nm) s
        = { target := { c with
              rprops := c.rprops.filter (fun e => e.1 != nm),
              pprops := c.pprops.filter (fun e => e.1 != nm) },
            obs := s, ret := JVal.undef, notified := [],
            warned := false } := by
      cases hb : c.isArray
      · simp [vueDel, PKey.keyStr, hroot, hown, hob, hb, hvue]
      · simp [vueDel, PKey.keyStr, hroot, hown, hob, hb, hvue]
    rw [hred]
    exact ⟨lookup_filter_ne c.rprops nm, lookup_filter_ne c.pprops nm,
      rfl, rfl⟩
  · intro hroot hown o hob
    have hvue : c.isVue = false := (Bool.or_eq_false_iff.mp hroot).1
    have hvm : s.vmCount o = 0 := by
      have h2 := (Bool.or_eq_false_iff.mp hroot).2
      rw [hob] at h2
      simpa using h2
    have hred : vueDel c (PKey.name nm) s
        = { target := { c with
              rprops := c.rprops.filter (fun e => e.1 != nm),
              pprops := c.pprops.filter (fun e => e.1 != nm) },
            obs := s, ret := JVal.undef, notified := [s.obDep o],
            warned := false } := by
      cases hb : c.isArray
      · simp [vueDel, PKey.keyStr, hroot, hown, hob, hb, hvue, hvm]
      · simp [vueDel, PKey.keyStr, hroot, hown, hob, hb, hvue, hvm]
    rw [hred]
    exact ⟨lookup_filter_ne c.rprops nm, lookup_filter_ne c.pprops nm,
      rfl, rfl⟩

/-- Root data (an object observed with `vmCount = 1`) holding a plain
own key `"k"`, used by the C8 counterexample. -/
def cRoot : Container :=
  { isArray := false, elems := [], rprops := [],
    pprops := [("k", JVal.num 1)], isVue := false, ob := some 0 }

/-- Observer state in which every observer is counted as a root-data
binding (`vmCount = 1`). -/
def sRoot : ObsState := { obsState0 with vmCount := fun _ => 1 }

/-- Counterexample to C8 as frozen: `"k"` is an own property of the
root-data object `cRoot` and `cRoot` is observed, yet `del(cRoot, "k")`
deletes nothing and fires no notify — it is refused with a diagnostic
because `vmCount` is non-zero, a branch the claim omits (the claim's
"otherwise" demands a deletion plus one notify here). -/
theorem vueDel_root_own_key_not_deleted :
    hasOwnProp cRoot "k" = true ∧
    (vueDel cRoot (PKey.name "k") sRoot).target = cRoot ∧
    (vueDel cRoot (PKey.name "k") sRoot).notified = [] ∧
    (vueDel cRoot (PKey.name "k") sRoot).warned = true :=
  ⟨rfl, rfl, rfl, rfl⟩

/-- An observed non-root object with the plain own key `"k"`, used by
the C8 witness. -/
def cDel : Container :=
  { isArray := false, elems := [], rprops := [],
    pprops := [("k", JVal.num 1)], isVue := false, ob := some 0 }

/-- Concrete instantiation of `vueDel_branch_behavior`: deleting the
own key `"k"` from the observed non-root object `cDel` removes it and
notifies the container observer's dep exactly once. -/
theorem vueDel_branch_behavior_witness :
    hasOwnProp cDel "k" = true ∧
    (cDel.isVue || cDel.ob.elim false
      (fun ob => obsState0.vmCount ob != 0)) = false ∧
    ((vueDel cDel (PKey.name "k") obsState0).target.pprops.lookup "k"
        = none ∧
      (vueDel cDel (PKey.name "k") obsState0).notified
        = [obsState0.obDep 0]) := by
  have h := (vueDel_branch_behavior cDel "k" 0 obsState0).2.2.2.2
    rfl rfl 0 rfl
  exact ⟨rfl, rfl, h.2.1, h.2.2.1⟩
